import Mathlib

/-!
Verification of the GRACE date-assignment and file-synchronization logic of
the repository (src/data/GSFC_grace_date.py, src/data/grace_months_html.py,
src/data/podaac_grace_sync.py, src/data/podaac_cumulus.py), as a shallow
embedding in Lean 4.
-/

set_option maxRecDepth 4000

/-! ## Mission month assignment (GSFC_grace_date.py line 213, grace_months_html.py lines 235-236) -/

/-- Month index assignment from the middle calendar date of an observation
interval: GSFC_grace_date.py line 213, grace_month = 12*(YY - 2002) + MM,
where (YY, MM) is the year and month of the middle date. -/
def grace_month_assign (year month : Int) : Int :=
  12 * (year - 2002) + month

/-- Decoding a month index back to a calendar year:
grace_months_html.py line 235, calendar_year = 2002 + (m-1)//12. -/
def grace_month_to_year (m : Int) : Int :=
  2002 + (m - 1) / 12

/-- Decoding a month index back to a calendar month:
grace_months_html.py line 236, calendar_month = (m-1) % 12 + 1. -/
def grace_month_to_month (m : Int) : Int :=
  (m - 1) % 12 + 1

/-! ## Day-of-year computation (GSFC_grace_date.py lines 186-208) -/

/-- Days per month in a leap year (GSFC_grace_date.py line 190). -/
def dpm_leap : List Nat := [31, 29, 31, 30, 31, 30, 31, 31, 30, 31, 30, 31]

/-- Days per month in a standard year (GSFC_grace_date.py line 191). -/
def dpm_stnd : List Nat := [31, 28, 31, 30, 31, 30, 31, 31, 30, 31, 30, 31]

/-- Table selection: the source selects dpm_leap at indices where
start_yr % 4 == 0 and dpm_stnd elsewhere (GSFC_grace_date.py lines 195-198,
205-208).  Python % on integers is floor-mod, matching Int.emod for the
positive modulus 4. -/
def dpm_table (year : Int) : List Nat :=
  if year % 4 = 0 then dpm_leap else dpm_stnd

/-- Entry (i, j) of np.tri(12,12,-1): 1 when j < i, else 0
(GSFC_grace_date.py line 193). -/
def mon_mat (i j : Nat) : Nat :=
  if j < i then 1 else 0

/-- Dot product of row i of mon_mat with a days-per-month table, as in
np.dot(mon_mat[m1_m1,:], dpm) (GSFC_grace_date.py lines 205-208). -/
def dot_row (i : Nat) (t : List Nat) : Nat :=
  ((List.range 12).map (fun j => mon_mat i j * t.getD j 0)).sum

/-- Day-of-year computation (GSFC_grace_date.py lines 205-208):
(D - 1) + np.dot(mon_mat[M-1,:], dpm), with the table selected by the
year's divisibility by 4.  month is 1-based; day is kept as an integer to
mirror the floating-point day arithmetic of the source. -/
def day_of_year (year : Int) (month : Nat) (day : Int) : Int :=
  (day - 1) + (dot_row (month - 1) (dpm_table year) : Int)

/-! ## Year-crossing day accumulation (GSFC_grace_date.py lines 229-233) -/

/-- Modelled from the spec: gravity_toolkit.time.calendar_days is not under
src/; spec sections 4.1 and 8 state it is the 12-length days-per-month table
differing only in February (28 vs 29) by the year's divisibility by 4,
which is the same table pair held in the source arrays dpm_leap/dpm_stnd. -/
def calendar_days (year : Int) : List Nat :=
  dpm_table year

/-- dpy = gravtk.time.calendar_days(start_yr).sum()
(GSFC_grace_date.py line 231). -/
def calendar_days_sum (year : Int) : Int :=
  ((calendar_days year).sum : Int)

/-- Year-crossing accumulation (GSFC_grace_date.py line 233):
end_cyclic = (end_yr - start_yr)*dpy + end_day. -/
def end_cyclic (start_yr end_yr end_day : Int) : Int :=
  (end_yr - start_yr) * calendar_days_sum start_yr + end_day

/-! ## Mission month correction pass (GSFC_grace_date.py line 216) -/

/-- Modelled from the spec: gravity_toolkit.time.adjust_months is not under
src/ (GSFC_grace_date.py line 216 only calls it).  Per spec section 4.4 it
is a forward scan carrying the previous emitted index: whenever the current
month index repeats the previous emitted index AND equals the known problem
index (160, spec section 9), the later occurrence is incremented by one. -/
def adjust_months_go : Option Int → List Int → List Int
  | _, [] => []
  | prev, m :: rest =>
    let next := if prev = some m ∧ m = 160 then m + 1 else m
    next :: adjust_months_go (some next) rest

/-- The correction pass over a whole month-index sequence
(spec section 4.4; called at GSFC_grace_date.py line 216). -/
def adjust_months (months : List Int) : List Int :=
  adjust_months_go none months

/-- Chronological order on (year, month) middle calendar dates. -/
def chron_le (a b : Int × Int) : Prop :=
  a.1 < b.1 ∨ (a.1 = b.1 ∧ a.2 ≤ b.2)

instance (a b : Int × Int) : Decidable (chron_le a b) := by
  unfold chron_le
  exact inferInstance

/-- The month-index sequence assigned to a sequence of middle calendar
dates before correction (GSFC_grace_date.py line 213 applied pointwise). -/
def grace_month_seq (dates : List (Int × Int)) : List Int :=
  dates.map (fun d => grace_month_assign d.1 d.2)

/-! ## Retry-driven fetch (podaac_grace_sync.py lines 306-342,
podaac_cumulus.py lines 242-283, GSFC_grace_date.py lines 58-137) -/

/-- Outcome of a single transfer attempt.  An attempt can raise before the
destination file is opened (the request/urlopen step), raise during the
chunked copy after the destination was opened for writing and truncated
(leaving partial content), or succeed with the full content. -/
inductive AttemptOutcome where
  | failBeforeOpen : AttemptOutcome
  | failDuringWrite : List Nat → AttemptOutcome
  | success : List Nat → AttemptOutcome
deriving DecidableEq

/-- Whether an attempt outcome is an exception (caught by the bare except
clause of the retry loops). -/
def attemptFails : AttemptOutcome → Bool
  | AttemptOutcome.success _ => false
  | _ => true

/-- Result of a retry-driven fetch: the final local file state (none when
the destination file does not exist), whether the max-retries error was
raised, and the number of transfer attempts performed. -/
structure PullResult where
  fileState : Option (List Nat)
  raised : Bool
  attempts : Nat
deriving DecidableEq

/-- The retry while-loop shared verbatim by podaac_grace_sync.http_pull_file
(lines 314-337), podaac_cumulus.http_pull_file (lines 251-278) and
GSFC_grace_date.get_GSFC_grace_mascons (lines 87-102): while
retry_counter < RETRY, run one attempt; any exception is swallowed and the
counter incremented; success breaks; when the loop ends with
retry_counter == RETRY a TimeoutError is raised.  The fuel argument is
RETRY - counter, so raising coincides with fuel exhaustion. -/
def retry_loop (attempt : Nat → AttemptOutcome) :
    Nat → Nat → Option (List Nat) → PullResult
  | counter, 0, st => ⟨st, true, counter⟩
  | counter, fuel + 1, st =>
    match attempt counter with
    | AttemptOutcome.failBeforeOpen => retry_loop attempt (counter + 1) fuel st
    | AttemptOutcome.failDuringWrite p =>
        retry_loop attempt (counter + 1) fuel (some p)
    | AttemptOutcome.success c => ⟨some c, false, counter + 1⟩

/-- http_pull_file (podaac_grace_sync.py lines 308-342 and
podaac_cumulus.py lines 244-283): the retry loop starting at counter 0.
Neither version inspects the prior local file state before downloading. -/
def http_pull_file (attempt : Nat → AttemptOutcome) (RETRY : Nat)
    (st : Option (List Nat)) : PullResult :=
  retry_loop attempt 0 RETRY st

/-- get_GSFC_grace_mascons (GSFC_grace_date.py lines 59-102): returns
immediately when the local file already exists (line 85), otherwise runs
the same retry loop around from_http. -/
def get_GSFC_grace_mascons (attempt : Nat → AttemptOutcome) (RETRY : Nat)
    (st : Option (List Nat)) : PullResult :=
  if st.isSome then ⟨st, false, 0⟩ else retry_loop attempt 0 RETRY st

/-- multiprocess_sync (podaac_grace_sync.py lines 292-304,
podaac_cumulus.py lines 228-240): wraps http_pull_file in a try/except
that catches any exception, logs it, and returns nothing, so a worker
failure does not propagate. -/
def multiprocess_sync (attempt : Nat → AttemptOutcome) (RETRY : Nat) :
    Option PullResult :=
  let r := http_pull_file attempt RETRY none
  if r.raised then none else some r

/-- The serial sync path (PROCESSES = 0, podaac_grace_sync.py lines
238-245, podaac_cumulus.py lines 166-174): each file is pulled in turn and
an exception from http_pull_file propagates, aborting the run before the
remaining files are attempted. -/
def serial_sync (RETRY : Nat) : List (Nat → AttemptOutcome) →
    Except String (List PullResult)
  | [] => Except.ok []
  | f :: fs =>
    let r := http_pull_file f RETRY none
    if r.raised then Except.error "Maximum number of retries reached"
    else
      match serial_sync RETRY fs with
      | Except.ok rs => Except.ok (r :: rs)
      | Except.error e => Except.error e

/-- The multiprocessing sync path (podaac_grace_sync.py lines 246-264,
podaac_cumulus.py lines 175-193): every file is handed to
multiprocess_sync and the pool is joined; the run always processes the
whole file set. -/
def parallel_sync (RETRY : Nat) (files : List (Nat → AttemptOutcome)) :
    List (Option PullResult) :=
  files.map (fun f => multiprocess_sync f RETRY)

/-! ## index.txt manifests (podaac_grace_sync.py lines 266-284,
podaac_cumulus.py lines 195-221) -/

/-- Strip a literal character sequence from the front of a character list,
returning the remainder on a match. -/
def stripLit : List Char → List Char → Option (List Char)
  | [], s => some s
  | _ :: _, [] => none
  | c :: cs, x :: xs => if x = c then stripLit cs xs else none

/-- Split the longest leading run of decimal digits from a character list,
as the greedy \d+ of the source regular expressions. -/
def spanDigits : List Char → List Char × List Char
  | [] => ([], [])
  | c :: cs =>
    if c.isDigit then
      let p := spanDigits cs
      (c :: p.1, p.2)
    else ([], c :: cs)

/-- The compiled pattern of compile_regex_pattern for PROC = CSR,
DREL = RL06, DSET = GSM (podaac_grace_sync.py lines 68-72):
GSM-2_\d+-\d+_(GRAC|GRFO)_UTCSR_BA01_0600.gz anchored at both ends, with
the dot before gz matching any character.  On a match, the date field
\d+-\d+ naming the granule's day range is returned. -/
def match_CSR_RL06_GSM (s : List Char) : Option (List Char) :=
  match stripLit "GSM-2_".data s with
  | none => none
  | some s1 =>
    match spanDigits s1 with
    | (d1, s2) =>
      if d1.isEmpty then none
      else
        match stripLit "-".data s2 with
        | none => none
        | some s3 =>
          match spanDigits s3 with
          | (d2, s4) =>
            if d2.isEmpty then none
            else
              match stripLit "_".data s4 with
              | none => none
              | some s5 =>
                match
                  (match stripLit "GRAC".data s5 with
                   | some r => some r
                   | none => stripLit "GRFO".data s5) with
                | none => none
                | some s6 =>
                  match stripLit "_UTCSR_BA01_0600".data s6 with
                  | none => none
                  | some s7 =>
                    match s7 with
                    | [] => none
                    | _ :: rest =>
                      match stripLit "gz".data rest with
                      | some [] => some (d1 ++ "-".data ++ d2)
                      | _ => none

/-- The date carried by a granule filename: the \d+-\d+ day-range field
extracted by the dataset regular expression. -/
def granule_date (f : String) : Option (List Char) :=
  match_CSR_RL06_GSM f.data

/-- Lexicographic byte-order comparison used to model Python sorted() on
filenames. -/
def chars_le : List Char → List Char → Bool
  | [], _ => true
  | _ :: _, [] => false
  | a :: as, b :: bs =>
    if a.toNat < b.toNat then true
    else if b.toNat < a.toNat then false
    else chars_le as bs

/-- Insertion step of the sorted() model. -/
def insert_file (s : String) : List String → List String
  | [] => [s]
  | t :: ts => if chars_le s.data t.data then s :: t :: ts else t :: insert_file s ts

/-- Python sorted() over filenames (insertion sort, stable under the
byte-order comparison). -/
def sorted_files (l : List String) : List String :=
  l.foldr insert_file []

/-- The index.txt contents written by podaac_grace_sync (lines 274-284):
every file of the local directory listing matching the dataset pattern,
sorted; no date deduplication is applied. -/
def grace_sync_index (listing : List String) : List String :=
  sorted_files (listing.filter (fun f => (match_CSR_RL06_GSM f.data).isSome))

/-- Modelled from the spec: gravity_toolkit.time.reduce_by_date is not
under src/ (podaac_cumulus.py line 212 only calls it).  Per spec section 6
it reduces a granule list to one file per unique date; the first file of
each date is kept, preserving order. -/
def reduce_by_date (date : String → Option (List Char))
    (files : List String) : List String :=
  files.foldl
    (fun acc f => if date f ∈ acc.map date then acc else acc ++ [f]) []

/-- The index.txt contents written by podaac_cumulus (lines 195-221): the
grace and grace-fo granule lists are each reduced to one file per unique
date, concatenated, and sorted. -/
def cumulus_index (grace_granules gracefo_granules : List String) :
    List String :=
  sorted_files (reduce_by_date granule_date grace_granules ++
    reduce_by_date granule_date gracefo_granules)

/-! ## Theorems -/

/-- Claim C2 (confirmed): the pre-correction month index is
12*(year - 2002) + month of the middle calendar date, April 2002 maps to
index 4, and decoding an index via year = 2002 + (m-1) div 12,
month = (m-1) mod 12 + 1 then re-encoding reproduces m. -/
theorem grace_month_round_trip (m : Int) (_h : 1 ≤ m) :
    grace_month_assign (grace_month_to_year m) (grace_month_to_month m) = m ∧
    grace_month_assign 2002 4 = 4 := by
  constructor
  · simp only [grace_month_assign, grace_month_to_year, grace_month_to_month]
    omega
  · decide

/-- Witness for grace_month_round_trip at m = 4. -/
theorem grace_month_round_trip_witness :
    grace_month_assign (grace_month_to_year 4) (grace_month_to_month 4) = 4 ∧
    grace_month_assign 2002 4 = 4 :=
  grace_month_round_trip 4 (by decide)

/-- Claim C3 (confirmed): the day-of-year computation returns (day - 1)
plus the sum of the days-per-month table entries of all months preceding
the given month; the leap table (February = 29) is selected exactly when
the year is divisible by 4; the table of a year divisible by 4 sums to 366
and the table of any other year sums to 365. -/
theorem day_of_year_table_spec (year : Int) (month : Nat) (day : Int)
    (h1 : 1 ≤ month) (h2 : month ≤ 12) :
    day_of_year year month day =
      (day - 1) + (((dpm_table year).take (month - 1)).sum : Int) ∧
    (year % 4 = 0 ↔ dpm_table year = dpm_leap) ∧
    (year % 4 = 0 → (dpm_table year).sum = 366) ∧
    (year % 4 ≠ 0 → (dpm_table year).sum = 365) := by
  refine ⟨?_, ?_, ?_, ?_⟩
  · have key : dot_row (month - 1) (dpm_table year) =
        ((dpm_table year).take (month - 1)).sum := by
      by_cases hy : year % 4 = 0
      · simp only [dpm_table, if_pos hy]
        interval_cases month <;> decide
      · simp only [dpm_table, if_neg hy]
        interval_cases month <;> decide
    simp only [day_of_year, key]
  · constructor
    · intro hy
      simp [dpm_table, hy]
    · intro ht
      by_contra hy
      simp only [dpm_table, if_neg hy] at ht
      exact absurd ht (by decide)
  · intro hy
    simp only [dpm_table, if_pos hy]
    decide
  · intro hy
    simp only [dpm_table, if_neg hy]
    decide

/-- Witness for day_of_year_table_spec at year 2004, month 3, day 1. -/
theorem day_of_year_table_spec_witness :
    day_of_year 2004 3 1 =
      (1 - 1) + (((dpm_table 2004).take (3 - 1)).sum : Int) ∧
    ((2004 : Int) % 4 = 0 ↔ dpm_table 2004 = dpm_leap) ∧
    ((2004 : Int) % 4 = 0 → (dpm_table 2004).sum = 366) ∧
    ((2004 : Int) % 4 ≠ 0 → (dpm_table 2004).sum = 365) :=
  day_of_year_table_spec 2004 3 1 (by decide) (by decide)

/-- Claim C4 (confirmed): the year-crossing accumulation equals
end_day plus (end_yr - start_yr) times the day count of the start year;
within a single year it is the plain end-day value, and across one year
boundary it is end_day plus the day count of the start year. -/
theorem end_cyclic_spec (start_yr end_yr end_day : Int) :
    end_cyclic start_yr end_yr end_day =
      end_day + (end_yr - start_yr) * calendar_days_sum start_yr ∧
    (end_yr = start_yr → end_cyclic start_yr end_yr end_day = end_day) ∧
    (end_yr = start_yr + 1 →
      end_cyclic start_yr end_yr end_day =
        end_day + calendar_days_sum start_yr) := by
  refine ⟨by simp only [end_cyclic] ; ring, ?_, ?_⟩
  · intro h
    simp [end_cyclic, h]
  · intro h
    simp only [end_cyclic, h]
    ring

/-- Witness for end_cyclic_spec at start_yr 2002, end_yr 2003, end_day 7. -/
theorem end_cyclic_spec_witness :
    end_cyclic 2002 2003 7 =
      7 + ((2003 : Int) - 2002) * calendar_days_sum 2002 ∧
    ((2003 : Int) = 2002 → end_cyclic 2002 2003 7 = 7) ∧
    ((2003 : Int) = 2002 + 1 →
      end_cyclic 2002 2003 7 = 7 + calendar_days_sum 2002) :=
  end_cyclic_spec 2002 2003 7

/-- Unfolding of the correction scan on a cons cell. -/
theorem adjust_go_cons (prev : Option Int) (m : Int) (rest : List Int) :
    adjust_months_go prev (m :: rest) =
      (if prev = some m ∧ m = 160 then m + 1 else m) ::
        adjust_months_go
          (some (if prev = some m ∧ m = 160 then m + 1 else m)) rest := rfl

/-- Wherever the correction scan changed a value, the emitted value is one
more than the previous emitted value (the carried state). -/
theorem adjust_go_diff (l : List Int) : ∀ (p : Int) (i : Nat),
    (adjust_months_go (some p) l).getD i 0 ≠ l.getD i 0 →
    (adjust_months_go (some p) l).getD i 0 =
      (if i = 0 then p else (adjust_months_go (some p) l).getD (i - 1) 0) + 1 := by
  induction l with
  | nil =>
    intro p i h
    simp [adjust_months_go] at h
  | cons m rest ih =>
    intro p i
    rw [adjust_go_cons]
    cases i with
    | zero =>
      intro h
      simp only [List.getD_cons_zero] at h ⊢
      by_cases hc : ((some p : Option Int) = some m ∧ m = 160)
      · rw [if_pos hc] at h ⊢
        have hp : p = m := by
          have := hc.1
          injection this
        simp [hp]
      · rw [if_neg hc] at h
        exact absurd rfl h
    | succ j =>
      intro h
      simp only [List.getD_cons_succ] at h
      have hres := ih _ j h
      simp only [Nat.succ_sub_one, List.getD_cons_succ]
      cases j with
      | zero => simpa using hres
      | succ k => simpa using hres

/-- Splitting the count of the problem index over a cons cell. -/
theorem count160_cons (m : Int) (rest : List Int) :
    (m :: rest).count 160 = rest.count 160 + (if m = 160 then 1 else 0) := by
  by_cases hm : m = 160
  · subst hm
    simp [List.count_cons]
  · have hm2 : ¬ ((160 : Int) = m) := fun h => hm h.symm
    simp [List.count_cons, hm, hm2]

/-- Sortedness is preserved by the correction scan when the problem index
is carried at most twice in total (counting the carried previous emitted
value), and every element dominates the carried value. -/
theorem adjust_go_pairwise (l : List Int) : ∀ (p : Int),
    List.Pairwise (fun a b : Int => a ≤ b) l →
    (∀ x ∈ l, p ≤ x) →
    l.count 160 + (if p = 160 then 1 else 0) ≤ 2 →
    List.Pairwise (fun a b : Int => a ≤ b) (adjust_months_go (some p) l) ∧
    ∀ x ∈ adjust_months_go (some p) l, p ≤ x := by
  induction l with
  | nil =>
    intro p _ _ _
    exact ⟨List.Pairwise.nil, by simp [adjust_months_go]⟩
  | cons m rest ih =>
    intro p hpw hall hcount
    rw [adjust_go_cons]
    have hpm : p ≤ m := hall m (List.mem_cons_self m rest)
    have hpw2 : List.Pairwise (fun a b : Int => a ≤ b) rest :=
      (List.pairwise_cons.mp hpw).2
    have hmrest : ∀ x ∈ rest, m ≤ x := (List.pairwise_cons.mp hpw).1
    rw [count160_cons] at hcount
    by_cases hc : ((some p : Option Int) = some m ∧ m = 160)
    · rw [if_pos hc]
      have hp : p = m := by
        have := hc.1
        injection this
      have h160 : m = 160 := hc.2
      have hcr : rest.count 160 = 0 := by
        rw [if_pos h160] at hcount
        rw [if_pos (by omega : p = 160)] at hcount
        omega
      have hnotin : (160 : Int) ∉ rest := List.count_eq_zero.mp hcr
      have hrest1 : ∀ x ∈ rest, m + 1 ≤ x := by
        intro x hx
        have h1 := hmrest x hx
        have h2 : x ≠ 160 := fun hxe => hnotin (hxe ▸ hx)
        omega
      have hrec := ih (m + 1) hpw2 hrest1
        (by
          rw [hcr]
          rw [if_neg (by omega : ¬ (m + 1 = 160))]
          omega)
      refine ⟨List.pairwise_cons.mpr ⟨hrec.2, hrec.1⟩, ?_⟩
      intro x hx
      rcases List.mem_cons.mp hx with hx0 | hx1
      · omega
      · have := hrec.2 x hx1
        omega
    · rw [if_neg hc]
      have hcount2 : rest.count 160 + (if m = 160 then 1 else 0) ≤ 2 := by
        by_cases hm : m = 160
        · have hpne : p ≠ 160 := by
            intro hp
            exact hc ⟨by rw [hp, hm], hm⟩
          rw [if_pos hm] at hcount ⊢
          rw [if_neg hpne] at hcount
          omega
        · rw [if_neg hm] at hcount ⊢
          omega
      have hrec := ih m hpw2 hmrest hcount2
      refine ⟨List.pairwise_cons.mpr ⟨hrec.2, hrec.1⟩, ?_⟩
      intro x hx
      rcases List.mem_cons.mp hx with hx0 | hx1
      · omega
      · have := hrec.2 x hx1
        omega

/-- The whole correction pass keeps a sorted sequence sorted when the
problem index occurs at most twice. -/
theorem adjust_months_pairwise (l : List Int)
    (h : List.Pairwise (fun a b : Int => a ≤ b) l)
    (hc : l.count 160 ≤ 2) :
    List.Pairwise (fun a b : Int => a ≤ b) (adjust_months l) := by
  cases l with
  | nil => simp [adjust_months, adjust_months_go]
  | cons m rest =>
    have hne : ¬ ((none : Option Int) = some m ∧ m = 160) := by simp
    have heq : adjust_months (m :: rest) = m :: adjust_months_go (some m) rest := by
      rw [adjust_months, adjust_go_cons, if_neg hne]
    rw [heq]
    have hpw2 : List.Pairwise (fun a b : Int => a ≤ b) rest :=
      (List.pairwise_cons.mp h).2
    have hmrest : ∀ x ∈ rest, m ≤ x := (List.pairwise_cons.mp h).1
    rw [count160_cons] at hc
    have hrec := adjust_go_pairwise rest m hpw2 hmrest hc
    exact List.pairwise_cons.mpr ⟨hrec.2, hrec.1⟩

/-- Wherever the whole correction pass changed a value, the position is
not the first one and the value is one more than its immediate
predecessor in the corrected sequence. -/
theorem adjust_months_diff (l : List Int) (i : Nat)
    (h : (adjust_months l).getD i 0 ≠ l.getD i 0) :
    1 ≤ i ∧
      (adjust_months l).getD i 0 = (adjust_months l).getD (i - 1) 0 + 1 := by
  cases l with
  | nil => simp [adjust_months, adjust_months_go] at h
  | cons m rest =>
    have hne : ¬ ((none : Option Int) = some m ∧ m = 160) := by simp
    have heq : adjust_months (m :: rest) = m :: adjust_months_go (some m) rest := by
      rw [adjust_months, adjust_go_cons, if_neg hne]
    rw [heq] at h ⊢
    cases i with
    | zero => simp [List.getD_cons_zero] at h
    | succ j =>
      simp only [List.getD_cons_succ] at h
      have hres := adjust_go_diff rest m j h
      refine ⟨by omega, ?_⟩
      simp only [Nat.succ_sub_one, List.getD_cons_succ]
      cases j with
      | zero => simpa using hres
      | succ k => simpa using hres

/-- The month assignment is monotone with respect to chronological order
of middle calendar dates with months in range 1..12. -/
theorem grace_month_assign_mono (a b : Int × Int)
    (ha1 : 1 ≤ a.2) (ha2 : a.2 ≤ 12) (hb1 : 1 ≤ b.2) (hb2 : b.2 ≤ 12)
    (h : chron_le a b) :
    grace_month_assign a.1 a.2 ≤ grace_month_assign b.1 b.2 := by
  rcases h with h | ⟨h1, h2⟩
  · simp only [grace_month_assign]
    omega
  · simp only [grace_month_assign]
    omega

/-- Claim C1 (corrected): for a chronologically sorted sequence of middle
calendar dates in which the known problem index 160 is assigned to at most
two observations, the corrected month-index sequence is non-decreasing,
and every position the correction pass changed is a non-initial position
whose value strictly exceeds its immediate predecessor by exactly 1.  The
restriction to at most two occurrences of the problem index is forced by
the counterexample adjust_months_triple_repeat_counterexample. -/
theorem adjust_months_monotone_correction (dates : List (Int × Int))
    (hrange : ∀ d ∈ dates, 1 ≤ d.2 ∧ d.2 ≤ 12)
    (hsort : List.Pairwise chron_le dates)
    (hcount : (grace_month_seq dates).count 160 ≤ 2) :
    List.Pairwise (fun a b : Int => a ≤ b)
      (adjust_months (grace_month_seq dates)) ∧
    ∀ i : Nat,
      (adjust_months (grace_month_seq dates)).getD i 0 ≠
        (grace_month_seq dates).getD i 0 →
      1 ≤ i ∧
        (adjust_months (grace_month_seq dates)).getD i 0 =
          (adjust_months (grace_month_seq dates)).getD (i - 1) 0 + 1 := by
  have hmono : List.Pairwise (fun a b : Int => a ≤ b) (grace_month_seq dates) := by
    rw [grace_month_seq, List.pairwise_map]
    refine List.Pairwise.imp_of_mem ?_ hsort
    intro a b ha hb hab
    exact grace_month_assign_mono a b (hrange a ha).1 (hrange a ha).2
      (hrange b hb).1 (hrange b hb).2 hab
  exact ⟨adjust_months_pairwise _ hmono hcount,
    fun i h => adjust_months_diff _ i h⟩

/-- Witness for adjust_months_monotone_correction on the four middle dates
March-May 2015 with the April 2015 problem month repeated once. -/
theorem adjust_months_monotone_correction_witness :
    (grace_month_seq
        [((2015 : Int), (3 : Int)), (2015, 4), (2015, 4), (2015, 5)]).count 160 ≤ 2 ∧
    (List.Pairwise (fun a b : Int => a ≤ b)
      (adjust_months (grace_month_seq
        [((2015 : Int), (3 : Int)), (2015, 4), (2015, 4), (2015, 5)])) ∧
    ∀ i : Nat,
      (adjust_months (grace_month_seq
        [((2015 : Int), (3 : Int)), (2015, 4), (2015, 4), (2015, 5)])).getD i 0 ≠
        (grace_month_seq
        [((2015 : Int), (3 : Int)), (2015, 4), (2015, 4), (2015, 5)]).getD i 0 →
      1 ≤ i ∧
        (adjust_months (grace_month_seq
          [((2015 : Int), (3 : Int)), (2015, 4), (2015, 4), (2015, 5)])).getD i 0 =
          (adjust_months (grace_month_seq
            [((2015 : Int), (3 : Int)), (2015, 4), (2015, 4), (2015, 5)])).getD
            (i - 1) 0 + 1) :=
  ⟨by decide,
    adjust_months_monotone_correction
      [((2015 : Int), (3 : Int)), (2015, 4), (2015, 4), (2015, 5)]
      (by decide) (by decide) (by decide)⟩

/-- Counterexample to claim C1 as stated: three chronologically sorted
observations all centered in April 2015 receive month indices
[160, 160, 160]; the correction pass emits [160, 161, 160], which is not
non-decreasing, and the decrease at the third position is not a correction
point strictly increasing by one. -/
theorem adjust_months_triple_repeat_counterexample :
    List.Pairwise chron_le [((2015 : Int), (4 : Int)), (2015, 4), (2015, 4)] ∧
    grace_month_seq [((2015 : Int), (4 : Int)), (2015, 4), (2015, 4)] =
      [160, 160, 160] ∧
    adjust_months
      (grace_month_seq [((2015 : Int), (4 : Int)), (2015, 4), (2015, 4)]) =
      [160, 161, 160] ∧
    ¬ List.Pairwise (fun a b : Int => a ≤ b)
      (adjust_months
        (grace_month_seq [((2015 : Int), (4 : Int)), (2015, 4), (2015, 4)])) := by
  refine ⟨by decide, by decide, by decide, ?_⟩
  decide

/-- When every attempt raises, the retry loop raises after consuming all
its fuel, one attempt per unit. -/
theorem retry_loop_all_fail (attempt : Nat → AttemptOutcome)
    (h : ∀ k, attemptFails (attempt k) = true) :
    ∀ (fuel counter : Nat) (st : Option (List Nat)),
      (retry_loop attempt counter fuel st).raised = true ∧
      (retry_loop attempt counter fuel st).attempts = counter + fuel := by
  intro fuel
  induction fuel with
  | zero =>
    intro c st
    simp [retry_loop]
  | succ r ih =>
    intro c st
    have hf := h c
    cases hA : attempt c with
    | failBeforeOpen =>
      simp only [retry_loop, hA]
      have hres := ih (c + 1) st
      exact ⟨hres.1, by rw [hres.2]; omega⟩
    | failDuringWrite p =>
      simp only [retry_loop, hA]
      have hres := ih (c + 1) (some p)
      exact ⟨hres.1, by rw [hres.2]; omega⟩
    | success cont =>
      rw [hA] at hf
      simp [attemptFails] at hf

/-- When the first j attempts fail and attempt j succeeds within the fuel
bound, the retry loop succeeds after exactly j + 1 attempts. -/
theorem retry_loop_success (attempt : Nat → AttemptOutcome) :
    ∀ (j fuel counter : Nat) (st : Option (List Nat)),
      (∀ k, k < j → attemptFails (attempt (counter + k)) = true) →
      attemptFails (attempt (counter + j)) = false →
      j < fuel →
      (retry_loop attempt counter fuel st).raised = false ∧
      (retry_loop attempt counter fuel st).attempts = counter + j + 1 := by
  intro j
  induction j with
  | zero =>
    intro fuel c st hfail hsucc hlt
    cases fuel with
    | zero => omega
    | succ r =>
      simp only [Nat.add_zero] at hsucc
      cases hA : attempt c with
      | success cont =>
        refine ⟨by simp [retry_loop, hA], by simp [retry_loop, hA]⟩
      | failBeforeOpen =>
        rw [hA] at hsucc
        simp [attemptFails] at hsucc
      | failDuringWrite p =>
        rw [hA] at hsucc
        simp [attemptFails] at hsucc
  | succ j ih =>
    intro fuel c st hfail hsucc hlt
    cases fuel with
    | zero => omega
    | succ r =>
      have h0 : attemptFails (attempt c) = true := by
        simpa using hfail 0 (by omega)
      have hf2 : ∀ k, k < j → attemptFails (attempt (c + 1 + k)) = true := by
        intro k hk
        have hh := hfail (k + 1) (by omega)
        have heq : c + (k + 1) = c + 1 + k := by omega
        rwa [heq] at hh
      have hs2 : attemptFails (attempt (c + 1 + j)) = false := by
        have heq : c + (j + 1) = c + 1 + j := by omega
        rwa [heq] at hsucc
      cases hA : attempt c with
      | success cont =>
        rw [hA] at h0
        simp [attemptFails] at h0
      | failBeforeOpen =>
        simp only [retry_loop, hA]
        have hres := ih r (c + 1) st hf2 hs2 (by omega)
        exact ⟨hres.1, by rw [hres.2]; omega⟩
      | failDuringWrite p =>
        simp only [retry_loop, hA]
        have hres := ih r (c + 1) (some p) hf2 hs2 (by omega)
        exact ⟨hres.1, by rw [hres.2]; omega⟩

/-- When every attempt raises before opening the destination file, the
retry loop leaves the local file state untouched and raises. -/
theorem retry_loop_clean (attempt : Nat → AttemptOutcome)
    (h : ∀ k, attempt k = AttemptOutcome.failBeforeOpen) :
    ∀ (fuel counter : Nat) (st : Option (List Nat)),
      (retry_loop attempt counter fuel st).fileState = st ∧
      (retry_loop attempt counter fuel st).raised = true := by
  intro fuel
  induction fuel with
  | zero =>
    intro c st
    simp [retry_loop]
  | succ r ih =>
    intro c st
    simp only [retry_loop, h c]
    exact ih (c + 1) st

/-- Claim C5 (confirmed): for RETRY at least 1, a fetch whose underlying
attempts fail N-1 times and then succeed on attempt N (N at most RETRY)
completes successfully after exactly N attempts, and a fetch whose
attempts all fail raises the max-retries error after exactly RETRY
attempts.  The GSFC mascon download uses the same loop when no local file
exists. -/
theorem http_pull_file_retry_spec
    (attempt attempt2 : Nat → AttemptOutcome) (N RETRY : Nat)
    (st st2 : Option (List Nat))
    (_hR : 1 ≤ RETRY) (hN1 : 1 ≤ N) (hNR : N ≤ RETRY)
    (hfail : ∀ k, k < N - 1 → attemptFails (attempt k) = true)
    (hsucc : attemptFails (attempt (N - 1)) = false)
    (hall : ∀ k, attemptFails (attempt2 k) = true) :
    ((http_pull_file attempt RETRY st).raised = false ∧
     (http_pull_file attempt RETRY st).attempts = N) ∧
    ((http_pull_file attempt2 RETRY st2).raised = true ∧
     (http_pull_file attempt2 RETRY st2).attempts = RETRY) ∧
    get_GSFC_grace_mascons attempt RETRY none =
      http_pull_file attempt RETRY none := by
  refine ⟨?_, ?_, rfl⟩
  · have hf0 : ∀ k, k < N - 1 → attemptFails (attempt (0 + k)) = true := by
      intro k hk
      simpa using hfail k hk
    have hs0 : attemptFails (attempt (0 + (N - 1))) = false := by
      simpa using hsucc
    have hres := retry_loop_success attempt (N - 1) RETRY 0 st hf0 hs0 (by omega)
    simp only [http_pull_file]
    exact ⟨hres.1, by rw [hres.2]; omega⟩
  · have hres := retry_loop_all_fail attempt2 hall RETRY 0 st2
    simp only [http_pull_file]
    exact ⟨hres.1, by rw [hres.2]; omega⟩

/-- Witness for http_pull_file_retry_spec: attempt 0 fails and attempt 1
succeeds (N = 2) with RETRY = 3; a second oracle always fails. -/
theorem http_pull_file_retry_spec_witness :
    ((http_pull_file
        (fun k => if k = 1 then AttemptOutcome.success [5]
          else AttemptOutcome.failBeforeOpen) 3 none).raised = false ∧
     (http_pull_file
        (fun k => if k = 1 then AttemptOutcome.success [5]
          else AttemptOutcome.failBeforeOpen) 3 none).attempts = 2) ∧
    ((http_pull_file (fun _ => AttemptOutcome.failBeforeOpen) 3
        (some [9])).raised = true ∧
     (http_pull_file (fun _ => AttemptOutcome.failBeforeOpen) 3
        (some [9])).attempts = 3) ∧
    get_GSFC_grace_mascons
        (fun k => if k = 1 then AttemptOutcome.success [5]
          else AttemptOutcome.failBeforeOpen) 3 none =
      http_pull_file
        (fun k => if k = 1 then AttemptOutcome.success [5]
          else AttemptOutcome.failBeforeOpen) 3 none :=
  http_pull_file_retry_spec
    (fun k => if k = 1 then AttemptOutcome.success [5]
      else AttemptOutcome.failBeforeOpen)
    (fun _ => AttemptOutcome.failBeforeOpen) 2 3 none (some [9])
    (by decide) (by decide) (by decide)
    (by decide) (by decide) (fun _ => rfl)

/-- Claim C6 (corrected, amended part): when every failing attempt raises
before the destination file is opened (a connection-phase failure), the
fetch raises the max-retries error with the destination file state
unchanged.  A failure during the chunked copy instead leaves a partial
write, as shown by mid_copy_failure_counterexample. -/
theorem clean_failure_preserves_local_state
    (attempt : Nat → AttemptOutcome) (RETRY : Nat) (st : Option (List Nat))
    (h : ∀ k, attempt k = AttemptOutcome.failBeforeOpen) :
    (http_pull_file attempt RETRY st).fileState = st ∧
    (http_pull_file attempt RETRY st).raised = true := by
  simpa only [http_pull_file] using retry_loop_clean attempt h RETRY 0 st

/-- Witness for clean_failure_preserves_local_state with RETRY = 2 and an
existing destination file. -/
theorem clean_failure_preserves_local_state_witness :
    (http_pull_file (fun _ => AttemptOutcome.failBeforeOpen) 2
        (some [3])).fileState = some [3] ∧
    (http_pull_file (fun _ => AttemptOutcome.failBeforeOpen) 2
        (some [3])).raised = true :=
  clean_failure_preserves_local_state
    (fun _ => AttemptOutcome.failBeforeOpen) 2 (some [3]) (fun _ => rfl)

/-- Counterexample to claim C6 as stated: the destination file is opened
for writing inside the try block, so an attempt that fails during the
chunked copy truncates the file and leaves partial content; after retry
exhaustion the destination state differs from the state before the fetch
(none, the file did not exist). -/
theorem mid_copy_failure_counterexample :
    (http_pull_file (fun _ => AttemptOutcome.failDuringWrite [7]) 1
        none).raised = true ∧
    (http_pull_file (fun _ => AttemptOutcome.failDuringWrite [7]) 1
        none).fileState = some [7] ∧
    some [7] ≠ (none : Option (List Nat)) :=
  ⟨rfl, rfl, by decide⟩

/-- Claim C10 (confirmed): with RETRY = 0 the while loop is skipped, so no
transfer attempt is performed, the max-retries error is raised at once,
and the destination file state is unchanged; the GSFC mascon download with
no pre-existing local file behaves the same way. -/
theorem retry_zero_no_attempt (attempt : Nat → AttemptOutcome)
    (st : Option (List Nat)) :
    http_pull_file attempt 0 st = ⟨st, true, 0⟩ ∧
    get_GSFC_grace_mascons attempt 0 none = ⟨none, true, 0⟩ :=
  ⟨rfl, rfl⟩

/-- Claim C7 (code_bug evaluation): on a second run against an unchanged
remote, with the local file already present, the podaac http_pull_file
still performs a transfer attempt, while the GSFC mascon fetch
short-circuits with zero attempts on its existence check. -/
theorem second_run_performs_transfer :
    (http_pull_file (fun _ => AttemptOutcome.success [1]) 5
        (some [1])).attempts = 1 ∧
    (get_GSFC_grace_mascons (fun _ => AttemptOutcome.success [1]) 5
        (some [1])).attempts = 0 :=
  ⟨rfl, rfl⟩

/-- In the serial sync path, a raised transfer error anywhere in the file
set aborts the run with the max-retries error. -/
theorem serial_sync_error_of_mem (RETRY : Nat) :
    ∀ (files : List (Nat → AttemptOutcome)),
      (∃ f ∈ files, (http_pull_file f RETRY none).raised = true) →
      serial_sync RETRY files =
        Except.error "Maximum number of retries reached" := by
  intro files
  induction files with
  | nil =>
    intro h
    simp at h
  | cons f fs ih =>
    intro h
    by_cases hr1 : (http_pull_file f RETRY none).raised = true
    · simp [serial_sync, hr1]
    · rcases h with ⟨g, hg, hr⟩
      rcases List.mem_cons.mp hg with h1 | h2
      · subst h1
        exact absurd hr hr1
      · have hres := ih ⟨g, h2, hr⟩
        simp [serial_sync, hr1, hres]

/-- Claim C8 (corrected, amended part): in the serial path any transfer
failure is process-fatal (the run aborts with the max-retries error),
while the multiprocessing path always processes the whole file set because
multiprocess_sync catches worker exceptions, as
parallel_run_continues_counterexample shows. -/
theorem serial_fatal_parallel_partial (RETRY : Nat)
    (files : List (Nat → AttemptOutcome))
    (h : ∃ f ∈ files, (http_pull_file f RETRY none).raised = true) :
    serial_sync RETRY files =
      Except.error "Maximum number of retries reached" ∧
    (parallel_sync RETRY files).length = files.length :=
  ⟨serial_sync_error_of_mem RETRY files h, by simp [parallel_sync]⟩

/-- Witness for serial_fatal_parallel_partial with one always-failing
file and RETRY = 1. -/
theorem serial_fatal_parallel_partial_witness :
    serial_sync 1 [fun _ : Nat => AttemptOutcome.failBeforeOpen] =
      Except.error "Maximum number of retries reached" ∧
    (parallel_sync 1 [fun _ : Nat => AttemptOutcome.failBeforeOpen]).length =
      [fun _ : Nat => AttemptOutcome.failBeforeOpen].length :=
  serial_fatal_parallel_partial 1 [fun _ : Nat => AttemptOutcome.failBeforeOpen]
    ⟨fun _ : Nat => AttemptOutcome.failBeforeOpen, List.Mem.head [], rfl⟩

/-- Counterexample to claim C8 as stated: a two-file multiprocessing run
in which the first transfer exhausts its retries still completes the
second transfer and the run finishes, a partial-result mode. -/
theorem parallel_run_continues_counterexample :
    parallel_sync 1
      [fun _ => AttemptOutcome.failBeforeOpen,
       fun _ => AttemptOutcome.success [1]] =
      [none, some ⟨some [1], false, 1⟩] :=
  rfl

/-- The keep-first-per-date fold never emits two files with the same date,
whatever list of files it scans and from whatever accumulator it starts. -/
theorem reduce_fold_nodup (date : String → Option (List Char)) :
    ∀ (files acc : List String),
      (acc.map date).Nodup →
      ((files.foldl
        (fun acc f => if date f ∈ acc.map date then acc else acc ++ [f])
          acc).map date).Nodup := by
  intro files
  induction files with
  | nil =>
    intro acc h
    simpa using h
  | cons f fs ih =>
    intro acc h
    simp only [List.foldl_cons]
    by_cases hf : date f ∈ acc.map date
    · rw [if_pos hf]
      exact ih acc h
    · rw [if_neg hf]
      apply ih
      rw [List.map_append, List.nodup_append]
      refine ⟨h, by simp, ?_⟩
      intro x hx hxa
      simp only [List.map_cons, List.map_nil, List.mem_singleton] at hxa
      exact hf (hxa ▸ hx)

/-- Claim C9 (corrected, amended part): in podaac_cumulus each mission's
granule list is reduced to one file per unique date before the index is
written, so no two of its lines carry the same date; podaac_grace_sync by
contrast writes every matching filename with no date deduplication, as
index_duplicate_date_counterexample shows. -/
theorem cumulus_index_unique_dates (files : List String) :
    ((reduce_by_date granule_date files).map granule_date).Nodup := by
  rw [reduce_by_date]
  exact reduce_fold_nodup granule_date files [] (by simp)

/-- Counterexample to claim C9 as stated: two granule filenames differing
only in the mission flag (GRAC vs GRFO) both match the CSR RL06 GSM
pattern and carry the same date field, and podaac_grace_sync writes both
to index.txt, so two lines of the written manifest name granule files
carrying the same date. -/
theorem index_duplicate_date_counterexample :
    grace_sync_index
      ["GSM-2_2018152-2018181_GRAC_UTCSR_BA01_0600.gz",
       "GSM-2_2018152-2018181_GRFO_UTCSR_BA01_0600.gz"] =
      ["GSM-2_2018152-2018181_GRAC_UTCSR_BA01_0600.gz",
       "GSM-2_2018152-2018181_GRFO_UTCSR_BA01_0600.gz"] ∧
    granule_date "GSM-2_2018152-2018181_GRAC_UTCSR_BA01_0600.gz" =
      granule_date "GSM-2_2018152-2018181_GRFO_UTCSR_BA01_0600.gz" ∧
    (granule_date "GSM-2_2018152-2018181_GRAC_UTCSR_BA01_0600.gz").isSome =
      true ∧
    "GSM-2_2018152-2018181_GRAC_UTCSR_BA01_0600.gz" ≠
      "GSM-2_2018152-2018181_GRFO_UTCSR_BA01_0600.gz" := by
  refine ⟨rfl, rfl, rfl, by decide⟩
